import Mathlib

/-
  Verification of the ingestion-job lifecycle manager of the
  document-management backend (IngestionService, IngestionJob entity and
  the DocumentsService status gateway), shallowly embedded from
  ingestion.module.ts, ingestion-job.entity.ts and documents.service.ts.

  Timestamps are milliseconds since epoch, modelled as Int.  Stores are
  association lists keyed by id; repository save is upsert-by-primary-key.
  The asynchronous dispatch (triggerIngestion) is modelled as a function
  from the two stores to the two stores, with the outcome of the external
  backend call passed in as a parameter.
-/

namespace DocMgmt

/-- Status of an ingestion job (enum IngestionStatus of the entity). -/
inductive IngestionStatus
  | pending
  | processing
  | completed
  | failed
  | cancelled
  deriving DecidableEq, Repr

/-- Status of a document (enum DocumentStatus of the document entity). -/
inductive DocumentStatus
  | uploaded
  | processing
  | processed
  | error
  deriving DecidableEq, Repr

/-- Runtime value of IngestionType.SINGLE_DOCUMENT (a string enum in the source). -/
def singleDocument : String := "single_document"

/-- Runtime value of IngestionType.BATCH_DOCUMENTS. -/
def batchDocuments : String := "batch_documents"

/-- Runtime value of IngestionType.REPROCESS. -/
def reprocess : String := "reprocess"

/-- A row of the ingestion_jobs table (entity IngestionJob).  The
ingestionType column holds the raw enum string; configuration holds the
JSON-stringified configuration; startedAt and completedAt are nullable
timestamps in milliseconds. -/
structure IngestionJob where
  id : String
  name : Option String := none
  description : Option String := none
  status : IngestionStatus := .pending
  ingestionType : String := singleDocument
  configuration : Option String := none
  result : Option String := none
  errorMessage : Option String := none
  startedAt : Option Int := none
  completedAt : Option Int := none
  progress : Nat := 0
  retryCount : Nat := 0
  maxRetries : Nat := 3
  triggeredById : Option String := none
  documentId : Option String := none
  deriving DecidableEq, Repr

/-- Computed getter isCompleted of the entity. -/
def IngestionJob.isCompleted (j : IngestionJob) : Bool :=
  j.status == .completed

/-- Computed getter isFailed of the entity. -/
def IngestionJob.isFailed (j : IngestionJob) : Bool :=
  j.status == .failed

/-- Computed getter canRetry of the entity: failed and retryCount below
maxRetries. -/
def IngestionJob.canRetry (j : IngestionJob) : Bool :=
  j.isFailed && decide (j.retryCount < j.maxRetries)

/-- Computed getter duration of the entity: completedAt minus startedAt in
milliseconds when both timestamps are set, null otherwise. -/
def IngestionJob.duration (j : IngestionJob) : Option Int :=
  match j.startedAt, j.completedAt with
  | some s, some c => some (c - s)
  | _, _ => none

/-- The ingestion-jobs table: rows in insertion order. -/
abbrev JobStore := List IngestionJob

/-- The documents table, reduced to the fields the manager touches:
document id and its status. -/
abbrev DocStore := List (String × DocumentStatus)

/-- Repository lookup by primary key (ingestionJobRepository.findOne). -/
def findById : JobStore → String → Option IngestionJob
  | [], _ => none
  | j :: rest, id => if j.id == id then some j else findById rest id

/-- Repository save: update the row with the same primary key when present,
insert the row otherwise (TypeORM repository.save semantics). -/
def save : JobStore → IngestionJob → JobStore
  | [], j => [j]
  | k :: rest, j => if k.id == j.id then j :: rest else k :: save rest j

/-- Document lookup by id (DocumentsService.findById, reduced to status). -/
def findDoc : DocStore → String → Option DocumentStatus
  | [], _ => none
  | p :: rest, id => if p.1 == id then some p.2 else findDoc rest id

/-- DocumentsService.updateStatus: looks the document up (throwing
NotFoundException, modelled as none, when absent) and saves it with the new
status.  The lastProcessedAt bookkeeping field is not modelled. -/
def updateDocStatus : DocStore → String → DocumentStatus → Option DocStore
  | [], _, _ => none
  | p :: rest, id, st =>
    if p.1 == id then some ((p.1, st) :: rest)
    else (updateDocStatus rest id st).map (fun r => p :: r)

/-- Errors thrown by the service: NotFoundException (the NotFoundError of
the spec) and BadRequestException (the ValidationError and
InvalidStateError of the spec). -/
inductive ServiceError
  | notFound (msg : String)
  | badRequest (msg : String)
  deriving DecidableEq, Repr

instance {e a : Type} [DecidableEq e] [DecidableEq a] :
    DecidableEq (Except e a) := fun x y =>
  match x, y with
  | .ok u, .ok v =>
    if h : u = v then isTrue (by rw [h]) else isFalse (by simp [h])
  | .error u, .error v =>
    if h : u = v then isTrue (by rw [h]) else isFalse (by simp [h])
  | .ok _, .error _ => isFalse (by simp)
  | .error _, .ok _ => isFalse (by simp)

/-- The create DTO as it arrives over the wire: ingestionType is the raw
string (possibly absent), configuration the stringified JSON object. -/
structure CreateIngestionJobDto where
  name : Option String := none
  description : Option String := none
  ingestionType : Option String := none
  documentId : Option String := none
  documentIds : Option (List String) := none
  configuration : Option String := none
  deriving DecidableEq, Repr

/-- The per-id loop of validateIngestionJobDto for batch jobs: resolve each
document id in order, throwing NotFoundException at the first id that does
not resolve. -/
def checkDocumentsExist (docs : DocStore) : List String → Except ServiceError Unit
  | [] => .ok ()
  | d :: rest =>
    match findDoc docs d with
    | some _ => checkDocumentsExist docs rest
    | none => .error (.notFound "Document not found")

/-- First branch of IngestionService.validateIngestionJobDto: for
SINGLE_DOCUMENT, documentId is required and must resolve. -/
def validateSingle (docs : DocStore) (dto : CreateIngestionJobDto) :
    Except ServiceError Unit :=
  if dto.ingestionType == some singleDocument then
    match dto.documentId with
    | none => .error (.badRequest "Document ID is required for single document ingestion")
    | some d =>
      match findDoc docs d with
      | some _ => .ok ()
      | none => .error (.notFound "Document not found")
  else .ok ()

/-- Second branch of IngestionService.validateIngestionJobDto: for
BATCH_DOCUMENTS, documentIds must be present and non-empty and every id
must resolve. -/
def validateBatch (docs : DocStore) (dto : CreateIngestionJobDto) :
    Except ServiceError Unit :=
  if dto.ingestionType == some batchDocuments then
    match dto.documentIds with
    | none => .error (.badRequest "Document IDs are required for batch ingestion")
    | some ids =>
      if ids.isEmpty then .error (.badRequest "Document IDs are required for batch ingestion")
      else checkDocumentsExist docs ids
  else .ok ()

/-- IngestionService.validateIngestionJobDto: the two branches in source
order.  A dto whose ingestionType is neither SINGLE_DOCUMENT nor
BATCH_DOCUMENTS (REPROCESS included) passes both branches untouched. -/
def validateIngestionJobDto (docs : DocStore) (dto : CreateIngestionJobDto) :
    Except ServiceError Unit :=
  match validateSingle docs dto with
  | .error e => .error e
  | .ok _ => validateBatch docs dto

/-- The entity IngestionService.create builds and saves: the dto fields,
triggeredBy the resolved user, status forced to PENDING, configuration
passed through, and the column defaults (result, errorMessage, startedAt,
completedAt null, progress 0, retryCount 0, maxRetries 3; ingestionType
column default when the dto carries none). -/
def newJobRecord (dto : CreateIngestionJobDto) (userId newId : String) :
    IngestionJob :=
  { id := newId
    name := dto.name
    description := dto.description
    status := .pending
    ingestionType := dto.ingestionType.getD singleDocument
    configuration := dto.configuration
    documentId := dto.documentId
    triggeredById := some userId }

/-- IngestionService.create up to its synchronous return: validate the dto,
resolve the triggering user, build the entity and save it.  The
asynchronous dispatch that create fires and forgets is modelled separately
by triggerIngestion.  users is the set of existing user ids, newId the id
the store generates for the new row.  Errors leave the store unchanged. -/
def create (jobs : JobStore) (docs : DocStore) (users : List String)
    (dto : CreateIngestionJobDto) (userId : String) (newId : String) :
    Except ServiceError IngestionJob × JobStore :=
  match validateIngestionJobDto docs dto with
  | .error e => (.error e, jobs)
  | .ok _ =>
    if userId ∈ users then
      (.ok (newJobRecord dto userId newId), save jobs (newJobRecord dto userId newId))
    else (.error (.notFound "User not found"), jobs)

/-- The field updates IngestionService.retry performs on the loaded job:
status back to PENDING, retryCount incremented, errorMessage, startedAt
and completedAt cleared.  The progress column is not touched. -/
def retryUpdate (job : IngestionJob) : IngestionJob :=
  { job with
    status := .pending
    retryCount := job.retryCount + 1
    errorMessage := none
    startedAt := none
    completedAt := none }

/-- IngestionService.retry: load the job (NotFoundException when absent),
refuse with BadRequestException unless canRetry, otherwise apply
retryUpdate and save.  Errors leave the store unchanged. -/
def retry (jobs : JobStore) (id : String) :
    Except ServiceError IngestionJob × JobStore :=
  match findById jobs id with
  | none => (.error (.notFound "Ingestion job not found"), jobs)
  | some job =>
    if job.canRetry then
      (.ok (retryUpdate job), save jobs (retryUpdate job))
    else (.error (.badRequest "Job cannot be retried"), jobs)

/-- The field updates IngestionService.cancel performs on the loaded job:
status CANCELLED, completedAt now. -/
def cancelUpdate (job : IngestionJob) (now : Int) : IngestionJob :=
  { job with status := .cancelled, completedAt := some now }

/-- IngestionService.cancel: load the job (NotFoundException when absent),
refuse with BadRequestException when the job is COMPLETED or FAILED,
otherwise apply cancelUpdate and save.  Errors leave the store
unchanged. -/
def cancel (jobs : JobStore) (id : String) (now : Int) :
    Except ServiceError IngestionJob × JobStore :=
  match findById jobs id with
  | none => (.error (.notFound "Ingestion job not found"), jobs)
  | some job =>
    if job.isCompleted || job.isFailed then
      (.error (.badRequest "Cannot cancel completed or failed job"), jobs)
    else
      (.ok (cancelUpdate job now), save jobs (cancelUpdate job now))

/-- The system-level effect of the cancel endpoint on the combined state:
the cancel method reads and writes only the ingestion job repository and
never invokes the documents service, so the document store passes through
untouched. -/
def cancelSystem (jobs : JobStore) (docs : DocStore) (id : String) (now : Int) :
    Except ServiceError IngestionJob × JobStore × DocStore :=
  ((cancel jobs id now).1, (cancel jobs id now).2, docs)

/-- Outcome of the axios call to the external processing backend: the
response data on a 2xx response, otherwise the error message (timeout,
connection error, non-2xx status). -/
inductive BackendResult
  | success (responseData : String)
  | failure (message : String)
  deriving DecidableEq, Repr

/-- The error message recorded on failure: error.message with the fallback
used when the message is falsy. -/
def failureMessage (msg : String) : String :=
  if msg == "" then "Unknown error occurred" else msg

/-- The field updates of the start of dispatch: status PROCESSING,
startedAt now. -/
def startUpdate (job : IngestionJob) (now1 : Int) : IngestionJob :=
  { job with status := .processing, startedAt := some now1 }

/-- The field updates of the dispatch success path on the in-memory job:
status COMPLETED, completedAt now, result the backend response data,
progress 100. -/
def completeUpdate (j1 : IngestionJob) (now2 : Int) (resp : String) :
    IngestionJob :=
  { j1 with status := .completed, completedAt := some now2,
            result := some resp, progress := 100 }

/-- The field updates of the dispatch catch block on the in-memory job:
status FAILED, completedAt now, errorMessage the error text.  Fields the
catch block does not mention (result, progress among them) keep whatever
the try block already wrote into the in-memory job. -/
def failUpdate (j1 : IngestionJob) (now2 : Int) (msg : String) :
    IngestionJob :=
  { j1 with status := .failed, completedAt := some now2,
            errorMessage := some msg }

/-- IngestionService.triggerIngestion, the asynchronous dispatch.  Loads
the job (an absent job throws; the caller swallows the rejection, so both
stores stay unchanged).  Then, mirroring the try/catch/finally of the
source: mark the job PROCESSING with startedAt now1 and save; mirror
PROCESSING onto the referenced document when there is one (a failure there
is caught: the in-memory job becomes FAILED with completedAt now2 and the
NotFoundException message, the ERROR mirror fails the same way, and the
finally block still saves the job); call the backend; on success mark the
in-memory job COMPLETED via completeUpdate and mirror PROCESSED; on
failure mark it FAILED via failUpdate and mirror ERROR; the finally block
saves the in-memory job unconditionally. -/
def triggerIngestion (jobs : JobStore) (docs : DocStore) (jobId : String)
    (now1 now2 : Int) (backend : BackendResult) : JobStore × DocStore :=
  match findById jobs jobId with
  | none => (jobs, docs)
  | some job =>
    let j1 := startUpdate job now1
    let jobs1 := save jobs j1
    match j1.documentId with
    | some d =>
      match updateDocStatus docs d .processing with
      | none =>
        (save jobs1 (failUpdate j1 now2 "Document not found"), docs)
      | some docs1 =>
        match backend with
        | .success resp =>
          match updateDocStatus docs1 d .processed with
          | some docs2 => (save jobs1 (completeUpdate j1 now2 resp), docs2)
          | none =>
            (save jobs1
              (failUpdate (completeUpdate j1 now2 resp) now2 "Document not found"),
             docs1)
        | .failure msg =>
          match updateDocStatus docs1 d .error with
          | some docs2 =>
            (save jobs1 (failUpdate j1 now2 (failureMessage msg)), docs2)
          | none =>
            (save jobs1 (failUpdate j1 now2 (failureMessage msg)), docs1)
    | none =>
      match backend with
      | .success resp => (save jobs1 (completeUpdate j1 now2 resp), docs)
      | .failure msg =>
        (save jobs1 (failUpdate j1 now2 (failureMessage msg)), docs)

/-- The COMPLETED jobs the stats query loads (find where status COMPLETED,
selecting startedAt and completedAt). -/
def completedJobs (jobs : JobStore) : List IngestionJob :=
  jobs.filter (fun j => j.status == .completed)

/-- The reduce callback of getIngestionStats: add completedAt minus
startedAt when the job has both timestamps, pass the accumulator through
otherwise. -/
def durationStep (sum : Int) (j : IngestionJob) : Int :=
  match j.startedAt, j.completedAt with
  | some s, some c => sum + (c - s)
  | _, _ => sum

/-- The reduce of getIngestionStats over the COMPLETED jobs, starting from
0: a job missing either timestamp contributes nothing to the sum. -/
def totalDuration (l : List IngestionJob) : Int :=
  l.foldl durationStep 0

/-- averageDuration of getIngestionStats: floor of totalDuration divided by
the number of COMPLETED jobs divided by 1000 (seconds), and 0 when there
are no COMPLETED jobs.  The denominator is the length of the full
COMPLETED list, timestamps present or not. -/
def averageDuration (jobs : JobStore) : Int :=
  let l := completedJobs jobs
  if 0 < l.length then Int.fdiv (totalDuration l) (l.length * 1000) else 0

/-- The durations of the COMPLETED jobs that have both timestamps. -/
def timedCompletedDurations (jobs : JobStore) : List Int :=
  (completedJobs jobs).filterMap IngestionJob.duration

/-- The average duration as the spec words it, for comparison with the
implemented averageDuration: the mean is taken over exactly the COMPLETED
jobs that have both timestamps set, jobs missing either timestamp excluded
from the average, and 0 when the set is empty. -/
def specAverageDuration (jobs : JobStore) : Int :=
  let l := timedCompletedDurations jobs
  if 0 < l.length then Int.fdiv l.sum (l.length * 1000) else 0

/-- The recognized values of the IngestionType string enum. -/
def recognizedIngestionTypes : List String :=
  [singleDocument, batchDocuments, reprocess]

/-- Modelled from the spec: the request-validation gate that enforces the
IsEnum and IsNotEmpty decorators of CreateIngestionJobDto (the
ValidationPipe bootstrap itself is not among the sources, only the
decorated dto declaration): a create request whose ingestionType is
missing or is not a recognized enum value is rejected. -/
def dtoTypeValid (dto : CreateIngestionJobDto) : Bool :=
  match dto.ingestionType with
  | some s => decide (s ∈ recognizedIngestionTypes)
  | none => false

/-- Modelled from the spec: the create endpoint as seen by a caller, the
validation gate in front of IngestionService.create.  A request rejected by
the gate never reaches the service, so no job row is created. -/
def createEndpoint (jobs : JobStore) (docs : DocStore) (users : List String)
    (dto : CreateIngestionJobDto) (userId : String) (newId : String) :
    Except ServiceError IngestionJob × JobStore :=
  if dtoTypeValid dto then create jobs docs users dto userId newId
  else (.error (.badRequest "Invalid ingestion type"), jobs)

/-- The final write of the dispatch success path in isolation: the
in-memory job object read at the start of triggerIngestion is updated to
COMPLETED with completedAt, result and progress 100, and the finally block
saves it to the store as it is at write time.  No status is re-read
between the update and the save. -/
def dispatchCompletionWrite (jobs : JobStore) (snapshot : IngestionJob)
    (now2 : Int) (resp : String) : JobStore :=
  save jobs (completeUpdate snapshot now2 resp)

/-- The job and document stores reachable from an empty job table through
the state-mutating operations of the manager: successful create, retry and
cancel calls and completed dispatch runs. -/
inductive Reachable : JobStore → DocStore → Prop
  | init (docs : DocStore) : Reachable [] docs
  | createStep {jobs : JobStore} {docs : DocStore} {jobs2 : JobStore}
      (users : List String) (dto : CreateIngestionJobDto)
      (userId newId : String) (j : IngestionJob)
      (hr : Reachable jobs docs)
      (h : create jobs docs users dto userId newId = (.ok j, jobs2)) :
      Reachable jobs2 docs
  | retryStep {jobs : JobStore} {docs : DocStore} {jobs2 : JobStore}
      (id : String) (j : IngestionJob)
      (hr : Reachable jobs docs)
      (h : retry jobs id = (.ok j, jobs2)) :
      Reachable jobs2 docs
  | cancelStep {jobs : JobStore} {docs : DocStore} {jobs2 : JobStore}
      (id : String) (now : Int) (j : IngestionJob)
      (hr : Reachable jobs docs)
      (h : cancel jobs id now = (.ok j, jobs2)) :
      Reachable jobs2 docs
  | dispatchStep {jobs : JobStore} {docs : DocStore}
      (jobId : String) (now1 now2 : Int) (backend : BackendResult)
      (hr : Reachable jobs docs) :
      Reachable (triggerIngestion jobs docs jobId now1 now2 backend).1
        (triggerIngestion jobs docs jobId now1 now2 backend).2

/-- Job-table invariant of interest: retryCount never exceeds maxRetries. -/
def JobInvariant (jobs : JobStore) : Prop :=
  ∀ j ∈ jobs, j.retryCount ≤ j.maxRetries

theorem findById_save_self (jobs : JobStore) (j : IngestionJob) :
    findById (save jobs j) j.id = some j := by
  induction jobs with
  | nil => simp [save, findById]
  | cons k rest ih =>
    by_cases h : (k.id == j.id) = true
    · simp [save, findById, h]
    · simp only [save, h, if_false, findById]
      have h2 : (k.id == j.id) = false := by
        simpa using h
      simp [h2, ih]

theorem mem_save {jobs : JobStore} {j x : IngestionJob}
    (h : x ∈ save jobs j) : x = j ∨ x ∈ jobs := by
  induction jobs with
  | nil => simpa [save] using h
  | cons k rest ih =>
    by_cases hk : (k.id == j.id) = true
    · simp only [save, hk, if_true] at h
      rcases List.mem_cons.mp h with h1 | h1
      · exact Or.inl h1
      · exact Or.inr (List.mem_cons_of_mem _ h1)
    · simp only [save, hk, if_false] at h
      rcases List.mem_cons.mp h with h1 | h1
      · exact Or.inr (h1 ▸ List.mem_cons_self _ _)
      · rcases ih h1 with h2 | h2
        · exact Or.inl h2
        · exact Or.inr (List.mem_cons_of_mem _ h2)

theorem findById_mem {jobs : JobStore} {id : String} {j : IngestionJob}
    (h : findById jobs id = some j) : j ∈ jobs := by
  induction jobs with
  | nil => simp [findById] at h
  | cons k rest ih =>
    by_cases hk : (k.id == id) = true
    · simp only [findById, hk, if_true, Option.some.injEq] at h
      exact h ▸ List.mem_cons_self _ _
    · simp only [findById, hk, if_false] at h
      exact List.mem_cons_of_mem _ (ih h)

theorem findById_id {jobs : JobStore} {id : String} {j : IngestionJob}
    (h : findById jobs id = some j) : j.id = id := by
  induction jobs with
  | nil => simp [findById] at h
  | cons k rest ih =>
    by_cases hk : (k.id == id) = true
    · simp only [findById, hk, if_true, Option.some.injEq] at h
      exact h ▸ eq_of_beq hk
    · simp only [findById, hk, if_false] at h
      exact ih h

theorem updateDocStatus_some {docs : DocStore} {d : String} {st0 : DocumentStatus}
    (h : findDoc docs d = some st0) (st : DocumentStatus) :
    ∃ docs2, updateDocStatus docs d st = some docs2 ∧ findDoc docs2 d = some st := by
  induction docs with
  | nil => simp [findDoc] at h
  | cons p rest ih =>
    by_cases hp : (p.1 == d) = true
    · refine ⟨(p.1, st) :: rest, ?_, ?_⟩
      · simp [updateDocStatus, hp]
      · simp [findDoc, hp]
    · simp only [findDoc, hp, if_false] at h
      rcases ih h with ⟨docs2, h1, h2⟩
      refine ⟨p :: docs2, ?_, ?_⟩
      · simp [updateDocStatus, hp, h1]
      · simp [findDoc, hp, h2]

theorem invariant_save {jobs : JobStore} {j : IngestionJob}
    (h : JobInvariant jobs) (hj : j.retryCount ≤ j.maxRetries) :
    JobInvariant (save jobs j) := by
  intro x hx
  rcases mem_save hx with h1 | h1
  · exact h1 ▸ hj
  · exact h x h1

theorem create_ok {jobs : JobStore} {docs : DocStore} {users : List String}
    {dto : CreateIngestionJobDto} {userId newId : String}
    {j : IngestionJob} {jobs2 : JobStore}
    (h : create jobs docs users dto userId newId = (.ok j, jobs2)) :
    validateIngestionJobDto docs dto = .ok () ∧ userId ∈ users ∧
    j = newJobRecord dto userId newId ∧ jobs2 = save jobs j := by
  unfold create at h
  cases hv : validateIngestionJobDto docs dto with
  | error e => rw [hv] at h; simp at h
  | ok u =>
    rw [hv] at h
    by_cases hc : userId ∈ users
    · simp only [hc, if_true] at h
      have hj : j = newJobRecord dto userId newId := by
        have := congrArg Prod.fst h
        simpa using this.symm
      have hs : jobs2 = save jobs (newJobRecord dto userId newId) := by
        have := congrArg Prod.snd h
        simpa using this.symm
      exact ⟨rfl, hc, hj, hj ▸ hs⟩
    · simp [hc] at h

theorem retry_of_canRetry {jobs : JobStore} {id : String} {job : IngestionJob}
    (hf : findById jobs id = some job) (hc : job.canRetry = true) :
    retry jobs id = (.ok (retryUpdate job), save jobs (retryUpdate job)) := by
  unfold retry
  rw [hf]
  simp [hc]

theorem retry_refused {jobs : JobStore} {id : String} {job : IngestionJob}
    (hf : findById jobs id = some job) (hc : job.canRetry = false) :
    retry jobs id = (.error (.badRequest "Job cannot be retried"), jobs) := by
  unfold retry
  rw [hf]
  simp [hc]

theorem retry_ok {jobs : JobStore} {id : String} {j : IngestionJob} {jobs2 : JobStore}
    (h : retry jobs id = (.ok j, jobs2)) :
    ∃ job, findById jobs id = some job ∧ job.canRetry = true ∧
      j = retryUpdate job ∧ jobs2 = save jobs j := by
  unfold retry at h
  cases hf : findById jobs id with
  | none => rw [hf] at h; simp at h
  | some job =>
    rw [hf] at h
    by_cases hc : job.canRetry = true
    · simp only [hc, if_true] at h
      have hj : j = retryUpdate job := by
        have := congrArg Prod.fst h
        simpa using this.symm
      have hs : jobs2 = save jobs (retryUpdate job) := by
        have := congrArg Prod.snd h
        simpa using this.symm
      exact ⟨job, rfl, hc, hj, hj ▸ hs⟩
    · simp [hc] at h

theorem cancel_of_not_terminal {jobs : JobStore} {id : String} {job : IngestionJob}
    (hf : findById jobs id = some job)
    (hc : (job.isCompleted || job.isFailed) = false) (now : Int) :
    cancel jobs id now =
      (.ok (cancelUpdate job now), save jobs (cancelUpdate job now)) := by
  unfold cancel
  rw [hf]
  simp [hc]

theorem cancel_refused {jobs : JobStore} {id : String} {job : IngestionJob}
    (hf : findById jobs id = some job)
    (hc : (job.isCompleted || job.isFailed) = true) (now : Int) :
    cancel jobs id now = (.error (.badRequest "Cannot cancel completed or failed job"), jobs) := by
  unfold cancel
  rw [hf]
  simp [hc]

theorem cancel_ok {jobs : JobStore} {id : String} {now : Int}
    {j : IngestionJob} {jobs2 : JobStore}
    (h : cancel jobs id now = (.ok j, jobs2)) :
    ∃ job, findById jobs id = some job ∧ (job.isCompleted || job.isFailed) = false ∧
      j = cancelUpdate job now ∧ jobs2 = save jobs j := by
  unfold cancel at h
  cases hf : findById jobs id with
  | none => rw [hf] at h; simp at h
  | some job =>
    rw [hf] at h
    by_cases hc : (job.isCompleted || job.isFailed) = true
    · simp [hc] at h
    · simp only [hc, if_false] at h
      have hj : j = cancelUpdate job now := by
        have := congrArg Prod.fst h
        simpa using this.symm
      have hs : jobs2 = save jobs (cancelUpdate job now) := by
        have := congrArg Prod.snd h
        simpa using this.symm
      exact ⟨job, rfl, by simpa using hc, hj, hj ▸ hs⟩

theorem startUpdate_documentId (job : IngestionJob) (now1 : Int) :
    (startUpdate job now1).documentId = job.documentId := rfl

theorem invariant_trigger {jobs : JobStore} {docs : DocStore}
    (h : JobInvariant jobs) (jobId : String) (now1 now2 : Int) (b : BackendResult) :
    JobInvariant (triggerIngestion jobs docs jobId now1 now2 b).1 := by
  unfold triggerIngestion
  cases hf : findById jobs jobId with
  | none => simpa using h
  | some job =>
    have hjob : job.retryCount ≤ job.maxRetries := h job (findById_mem hf)
    cases hd : job.documentId with
    | some d =>
      cases hu : updateDocStatus docs d .processing with
      | none =>
        simp only [startUpdate_documentId, hd, hu]
        exact invariant_save (invariant_save h hjob) hjob
      | some docs1 =>
        cases b with
        | success resp =>
          cases hu2 : updateDocStatus docs1 d .processed with
          | some docs2 =>
            simp only [startUpdate_documentId, hd, hu, hu2]
            exact invariant_save (invariant_save h hjob) hjob
          | none =>
            simp only [startUpdate_documentId, hd, hu, hu2]
            exact invariant_save (invariant_save h hjob) hjob
        | failure msg =>
          cases hu2 : updateDocStatus docs1 d .error with
          | some docs2 =>
            simp only [startUpdate_documentId, hd, hu, hu2]
            exact invariant_save (invariant_save h hjob) hjob
          | none =>
            simp only [startUpdate_documentId, hd, hu, hu2]
            exact invariant_save (invariant_save h hjob) hjob
    | none =>
      cases b with
      | success resp =>
        simp only [startUpdate_documentId, hd]
        exact invariant_save (invariant_save h hjob) hjob
      | failure msg =>
        simp only [startUpdate_documentId, hd]
        exact invariant_save (invariant_save h hjob) hjob

theorem create_error {jobs : JobStore} {docs : DocStore} {users : List String}
    {dto : CreateIngestionJobDto} {userId newId : String} {e : ServiceError}
    (hv : validateIngestionJobDto docs dto = .error e) :
    create jobs docs users dto userId newId = (.error e, jobs) := by
  unfold create
  rw [hv]

theorem checkDocumentsExist_error {docs : DocStore} {ids : List String}
    (h : ∃ d ∈ ids, findDoc docs d = none) :
    checkDocumentsExist docs ids = .error (.notFound "Document not found") := by
  induction ids with
  | nil => simp at h
  | cons d rest ih =>
    rcases h with ⟨x, hx, hnone⟩
    cases hd : findDoc docs d with
    | none => simp [checkDocumentsExist, hd]
    | some st =>
      simp only [checkDocumentsExist, hd]
      rcases List.mem_cons.mp hx with rfl | hxr
      · rw [hd] at hnone; exact absurd hnone (by simp)
      · exact ih ⟨x, hxr, hnone⟩

theorem checkDocumentsExist_ok {docs : DocStore} {ids : List String}
    (h : checkDocumentsExist docs ids = .ok ()) :
    ∀ d ∈ ids, (findDoc docs d).isSome := by
  induction ids with
  | nil => intro d hd; simp at hd
  | cons d rest ih =>
    intro x hx
    cases hd : findDoc docs d with
    | none => rw [checkDocumentsExist, hd] at h; simp at h
    | some st =>
      rw [checkDocumentsExist, hd] at h
      rcases List.mem_cons.mp hx with rfl | hxr
      · simp [hd]
      · exact ih h x hxr

theorem foldl_durationStep (l : List IngestionJob) (a : Int) :
    l.foldl durationStep a = a + (l.filterMap IngestionJob.duration).sum := by
  induction l generalizing a with
  | nil => simp
  | cons j rest ih =>
    rw [List.foldl_cons, ih]
    cases hs : j.startedAt with
    | none =>
      simp [durationStep, IngestionJob.duration, hs]
    | some s =>
      cases hc : j.completedAt with
      | none => simp [durationStep, IngestionJob.duration, hs, hc]
      | some c =>
        simp [durationStep, IngestionJob.duration, hs, hc]
        ring

theorem reachable_invariant {jobs : JobStore} {docs : DocStore}
    (h : Reachable jobs docs) : JobInvariant jobs := by
  induction h with
  | init docs => intro j hj; simp at hj
  | createStep users dto userId newId j hr hc ih =>
    obtain ⟨_, _, hj, hsave⟩ := create_ok hc
    have hjc : j.retryCount ≤ j.maxRetries := by
      rw [hj]; exact Nat.zero_le 3
    exact hsave ▸ invariant_save ih hjc
  | retryStep id j hr hc ih =>
    obtain ⟨job, hf, hcan, hj, hsave⟩ := retry_ok hc
    have hlt : job.retryCount < job.maxRetries := by
      simp only [IngestionJob.canRetry, Bool.and_eq_true, decide_eq_true_eq] at hcan
      exact hcan.2
    have hjc : j.retryCount ≤ j.maxRetries := by
      rw [hj]; exact hlt
    exact hsave ▸ invariant_save ih hjc
  | cancelStep id now j hr hc ih =>
    obtain ⟨job, hf, hok, hj, hsave⟩ := cancel_ok hc
    have hjc : j.retryCount ≤ j.maxRetries := by
      rw [hj]; exact ih job (findById_mem hf)
    exact hsave ▸ invariant_save ih hjc
  | dispatchStep jobId now1 now2 backend hr ih =>
    exact invariant_trigger ih jobId now1 now2 backend

/-- C1 counterexample: cancel on a job whose status is already CANCELLED
succeeds — the code refuses only COMPLETED and FAILED — contradicting the
claim that cancel on a CANCELLED job fails with InvalidStateError and
leaves the job unchanged. -/
theorem cancel_on_cancelled_succeeds :
    ({ id := "j1", status := .cancelled } : IngestionJob).status =
      IngestionStatus.cancelled ∧
    (cancel [({ id := "j1", status := .cancelled } : IngestionJob)] "j1" 99).1 =
      .ok (cancelUpdate { id := "j1", status := .cancelled } 99) ∧
    (cancelUpdate ({ id := "j1", status := .cancelled } : IngestionJob) 99).completedAt =
      some 99 := by
  decide

/-- C1 (amended): for every stored job, cancel succeeds exactly when the
status is not COMPLETED and not FAILED — PENDING, PROCESSING or already
CANCELLED — in which case it sets status CANCELLED and completedAt to the
current time and persists the job; when the status is COMPLETED or FAILED
it fails with the BadRequestException standing for InvalidStateError and
the store is unchanged. -/
theorem cancel_allowed_iff_not_completed_failed
    (jobs : JobStore) (id : String) (now : Int) (job : IngestionJob)
    (hf : findById jobs id = some job) :
    (job.status ≠ .completed ∧ job.status ≠ .failed →
      cancel jobs id now =
        (.ok (cancelUpdate job now), save jobs (cancelUpdate job now)) ∧
      (cancelUpdate job now).status = .cancelled ∧
      (cancelUpdate job now).completedAt = some now ∧
      findById (save jobs (cancelUpdate job now)) id = some (cancelUpdate job now)) ∧
    ((job.status = .completed ∨ job.status = .failed) →
      cancel jobs id now =
        (.error (.badRequest "Cannot cancel completed or failed job"), jobs)) := by
  constructor
  · intro h
    obtain ⟨h1, h2⟩ := h
    have hc : (job.isCompleted || job.isFailed) = false := by
      simp [IngestionJob.isCompleted, IngestionJob.isFailed, h1, h2]
    refine ⟨cancel_of_not_terminal hf hc now, rfl, rfl, ?_⟩
    have hid := findById_id hf
    rw [← hid]
    exact findById_save_self ..
  · intro h
    have hc : (job.isCompleted || job.isFailed) = true := by
      rcases h with h | h <;>
        simp [IngestionJob.isCompleted, IngestionJob.isFailed, h]
    exact cancel_refused hf hc now

/-- C1 witness: the amended cancel rule applied to a concrete PENDING
job. -/
theorem cancel_allowed_witness :
    findById [({ id := "j1" } : IngestionJob)] "j1" = some { id := "j1" } ∧
    (cancel [({ id := "j1" } : IngestionJob)] "j1" 7 =
        (.ok (cancelUpdate { id := "j1" } 7),
         save [{ id := "j1" }] (cancelUpdate { id := "j1" } 7)) ∧
      (cancelUpdate ({ id := "j1" } : IngestionJob) 7).status = .cancelled ∧
      (cancelUpdate ({ id := "j1" } : IngestionJob) 7).completedAt = some 7 ∧
      findById (save [{ id := "j1" }] (cancelUpdate { id := "j1" } 7)) "j1" =
        some (cancelUpdate { id := "j1" } 7)) :=
  ⟨by decide,
   (cancel_allowed_iff_not_completed_failed [{ id := "j1" }] "j1" 7
     { id := "j1" } (by decide)).1 (by decide)⟩

/-- C2 counterexample: retry succeeds on a FAILED job whose progress is
100 and the persisted job keeps progress 100, contradicting the claim that
the resulting persisted job has progress 0. -/
theorem retry_leaves_progress_nonzero :
    (retry [({ id := "j2", status := .failed, progress := 100 } : IngestionJob)] "j2").1 =
      .ok (retryUpdate { id := "j2", status := .failed, progress := 100 }) ∧
    (retryUpdate ({ id := "j2", status := .failed, progress := 100 } : IngestionJob)).progress
      = 100 ∧
    (retryUpdate ({ id := "j2", status := .failed, progress := 100 } : IngestionJob)).progress
      ≠ 0 := by
  decide

/-- C2 (amended): for every job on which retry succeeds, the resulting
persisted job has status PENDING, errorMessage null, startedAt null,
completedAt null and retryCount one more than before; progress is left
unchanged, not reset to 0; and id, ingestionType, documentId,
configuration, maxRetries and triggeredBy are unchanged. -/
theorem retry_resets_fields (jobs : JobStore) (id : String) (job : IngestionJob)
    (hf : findById jobs id = some job) (hc : job.canRetry = true) :
    retry jobs id = (.ok (retryUpdate job), save jobs (retryUpdate job)) ∧
    (retryUpdate job).status = .pending ∧
    (retryUpdate job).errorMessage = none ∧
    (retryUpdate job).startedAt = none ∧
    (retryUpdate job).completedAt = none ∧
    (retryUpdate job).retryCount = job.retryCount + 1 ∧
    (retryUpdate job).progress = job.progress ∧
    (retryUpdate job).id = job.id ∧
    (retryUpdate job).ingestionType = job.ingestionType ∧
    (retryUpdate job).documentId = job.documentId ∧
    (retryUpdate job).configuration = job.configuration ∧
    (retryUpdate job).maxRetries = job.maxRetries ∧
    (retryUpdate job).triggeredById = job.triggeredById ∧
    findById (save jobs (retryUpdate job)) id = some (retryUpdate job) := by
  refine ⟨retry_of_canRetry hf hc, rfl, rfl, rfl, rfl, rfl, rfl, rfl, rfl, rfl,
    rfl, rfl, rfl, ?_⟩
  have hid := findById_id hf
  rw [← hid]
  exact findById_save_self ..

/-- C2 witness: the amended retry rule applied to a concrete FAILED job
carrying progress 40. -/
theorem retry_resets_fields_witness :
    (findById [({ id := "j2", status := .failed, progress := 40 } : IngestionJob)] "j2" =
        some { id := "j2", status := .failed, progress := 40 } ∧
      ({ id := "j2", status := .failed, progress := 40 } : IngestionJob).canRetry = true) ∧
    (retry [({ id := "j2", status := .failed, progress := 40 } : IngestionJob)] "j2" =
        (.ok (retryUpdate { id := "j2", status := .failed, progress := 40 }),
         save [{ id := "j2", status := .failed, progress := 40 }]
           (retryUpdate { id := "j2", status := .failed, progress := 40 })) ∧
      (retryUpdate ({ id := "j2", status := .failed, progress := 40 } : IngestionJob)).progress
        = ({ id := "j2", status := .failed, progress := 40 } : IngestionJob).progress) :=
  ⟨⟨by decide, by decide⟩,
   (retry_resets_fields [{ id := "j2", status := .failed, progress := 40 }] "j2"
      { id := "j2", status := .failed, progress := 40 } (by decide) (by decide)).1,
   (retry_resets_fields [{ id := "j2", status := .failed, progress := 40 }] "j2"
      { id := "j2", status := .failed, progress := 40 } (by decide) (by decide)).2.2.2.2.2.2.1⟩

/-- C3 (confirmed): retry is permitted exactly when the status is FAILED
and retryCount is below maxRetries, otherwise it fails with the
BadRequestException standing for InvalidStateError and the store is
unchanged; and every job table reachable through create, retry, cancel and
dispatch keeps retryCount at most maxRetries for every job. -/
theorem retry_guard_and_retry_bound :
    (∀ (jobs : JobStore) (id : String) (job : IngestionJob),
      findById jobs id = some job →
      (job.status = .failed ∧ job.retryCount < job.maxRetries →
        retry jobs id = (.ok (retryUpdate job), save jobs (retryUpdate job))) ∧
      (¬(job.status = .failed ∧ job.retryCount < job.maxRetries) →
        retry jobs id = (.error (.badRequest "Job cannot be retried"), jobs))) ∧
    (∀ (jobs : JobStore) (docs : DocStore), Reachable jobs docs →
      ∀ j ∈ jobs, j.retryCount ≤ j.maxRetries) := by
  constructor
  · intro jobs id job hf
    constructor
    · intro h
      obtain ⟨h1, h2⟩ := h
      have hc : job.canRetry = true := by
        simp [IngestionJob.canRetry, IngestionJob.isFailed, h1, h2]
      exact retry_of_canRetry hf hc
    · intro hn
      have hc : job.canRetry = false := by
        rw [Bool.eq_false_iff]
        intro htrue
        apply hn
        simpa [IngestionJob.canRetry, IngestionJob.isFailed] using htrue
      exact retry_refused hf hc
  · intro jobs docs hr
    exact reachable_invariant hr

/-- C3 witness: the guard applied to a concrete FAILED job with
retryCount 0, and the bound read off a job table reached by one create. -/
theorem retry_guard_witness :
    (findById [({ id := "j3", status := .failed } : IngestionJob)] "j3" =
        some { id := "j3", status := .failed } ∧
      (({ id := "j3", status := .failed } : IngestionJob).status = .failed ∧
        ({ id := "j3", status := .failed } : IngestionJob).retryCount <
          ({ id := "j3", status := .failed } : IngestionJob).maxRetries)) ∧
    retry [({ id := "j3", status := .failed } : IngestionJob)] "j3" =
      (.ok (retryUpdate { id := "j3", status := .failed }),
       save [{ id := "j3", status := .failed }]
         (retryUpdate { id := "j3", status := .failed })) ∧
    (newJobRecord { ingestionType := some reprocess } "u1" "jA").retryCount ≤
      (newJobRecord { ingestionType := some reprocess } "u1" "jA").maxRetries :=
  ⟨⟨by decide, by decide⟩,
   (retry_guard_and_retry_bound.1 [{ id := "j3", status := .failed }] "j3"
      { id := "j3", status := .failed } (by decide)).1 (by decide),
   retry_guard_and_retry_bound.2
     [newJobRecord { ingestionType := some reprocess } "u1" "jA"] []
     (Reachable.createStep ["u1"] { ingestionType := some reprocess } "u1" "jA"
       (newJobRecord { ingestionType := some reprocess } "u1" "jA")
       (Reachable.init []) (by decide))
     (newJobRecord { ingestionType := some reprocess } "u1" "jA")
     (List.mem_cons_self _ _)⟩

/-- C4 (confirmed through the spec-modelled validation gate): a create
request whose ingestionType is missing or is not one of the recognized
enum values is rejected with the BadRequestException standing for
ValidationError before it reaches the service, so no job row is
created. -/
theorem invalid_type_rejected (jobs : JobStore) (docs : DocStore)
    (users : List String) (dto : CreateIngestionJobDto) (userId newId : String)
    (h : dto.ingestionType = none ∨
      ∃ s, dto.ingestionType = some s ∧ s ∉ recognizedIngestionTypes) :
    createEndpoint jobs docs users dto userId newId =
      (.error (.badRequest "Invalid ingestion type"), jobs) := by
  have hv : dtoTypeValid dto = false := by
    rcases h with h | ⟨s, hs, hmem⟩
    · simp [dtoTypeValid, h]
    · simp [dtoTypeValid, hs, hmem]
  simp [createEndpoint, hv]

/-- C4 witness: a request with no ingestionType and a request with the
unrecognized value the end-to-end test posts are both rejected with the
store left empty. -/
theorem invalid_type_rejected_witness :
    (({} : CreateIngestionJobDto).ingestionType = none ∧
      createEndpoint [] [] ["u1"] {} "u1" "j9" =
        (.error (.badRequest "Invalid ingestion type"), [])) ∧
    ("invalid_type" ∉ recognizedIngestionTypes ∧
      createEndpoint [] [] ["u1"] { ingestionType := some "invalid_type" } "u1" "j9" =
        (.error (.badRequest "Invalid ingestion type"), [])) :=
  ⟨⟨rfl, invalid_type_rejected [] [] ["u1"] {} "u1" "j9" (Or.inl rfl)⟩,
   ⟨by decide,
    invalid_type_rejected [] [] ["u1"] { ingestionType := some "invalid_type" }
      "u1" "j9" (Or.inr ⟨"invalid_type", rfl, by decide⟩)⟩⟩

/-- C5 (confirmed): when the backend call of dispatch succeeds for a job
whose document reference, if any, resolves, the job is persisted with
status COMPLETED, completedAt set, progress 100 and result the backend
response, and the referenced document is set to PROCESSED. -/
theorem dispatch_success_completes
    (jobs : JobStore) (docs : DocStore) (jobId : String) (now1 now2 : Int)
    (resp : String) (job : IngestionJob)
    (hf : findById jobs jobId = some job)
    (hdoc : job.documentId = none ∨
      ∃ d st, job.documentId = some d ∧ findDoc docs d = some st) :
    findById (triggerIngestion jobs docs jobId now1 now2 (.success resp)).1 jobId =
      some (completeUpdate (startUpdate job now1) now2 resp) ∧
    (completeUpdate (startUpdate job now1) now2 resp).status = .completed ∧
    (completeUpdate (startUpdate job now1) now2 resp).completedAt = some now2 ∧
    (completeUpdate (startUpdate job now1) now2 resp).progress = 100 ∧
    (completeUpdate (startUpdate job now1) now2 resp).result = some resp ∧
    ∀ d, job.documentId = some d →
      findDoc (triggerIngestion jobs docs jobId now1 now2 (.success resp)).2 d =
        some .processed := by
  unfold triggerIngestion
  rw [hf]
  rcases hdoc with hd | ⟨d, st, hd, hfd⟩
  · simp only [startUpdate_documentId, hd]
    refine ⟨?_, rfl, rfl, rfl, rfl, ?_⟩
    · have hid := findById_id hf
      rw [← hid]
      exact findById_save_self ..
    · intro x hx
      exact absurd hx (by simp)
  · obtain ⟨docs1, hu, hfd1⟩ := updateDocStatus_some hfd .processing
    obtain ⟨docs2, hu2, hfd2⟩ := updateDocStatus_some hfd1 .processed
    simp only [startUpdate_documentId, hd, hu, hu2]
    refine ⟨?_, rfl, rfl, rfl, rfl, ?_⟩
    · have hid := findById_id hf
      rw [← hid]
      exact findById_save_self ..
    · intro x hx
      injection hx with hdx
      rw [← hdx]
      exact hfd2

/-- C5 witness: a concrete PENDING job referencing an existing document,
dispatched with a successful backend response. -/
theorem dispatch_success_witness :
    (findById [({ id := "j5", documentId := some "d1" } : IngestionJob)] "j5" =
        some { id := "j5", documentId := some "d1" } ∧
      (({ id := "j5", documentId := some "d1" } : IngestionJob).documentId = none ∨
        ∃ d st, ({ id := "j5", documentId := some "d1" } : IngestionJob).documentId = some d ∧
          findDoc [("d1", DocumentStatus.uploaded)] d = some st)) ∧
    (findById (triggerIngestion [{ id := "j5", documentId := some "d1" }]
        [("d1", DocumentStatus.uploaded)] "j5" 10 20 (.success "resp")).1 "j5" =
      some (completeUpdate (startUpdate { id := "j5", documentId := some "d1" } 10) 20 "resp") ∧
    (completeUpdate (startUpdate ({ id := "j5", documentId := some "d1" } : IngestionJob) 10)
        20 "resp").status = .completed ∧
    (completeUpdate (startUpdate ({ id := "j5", documentId := some "d1" } : IngestionJob) 10)
        20 "resp").completedAt = some 20 ∧
    (completeUpdate (startUpdate ({ id := "j5", documentId := some "d1" } : IngestionJob) 10)
        20 "resp").progress = 100 ∧
    (completeUpdate (startUpdate ({ id := "j5", documentId := some "d1" } : IngestionJob) 10)
        20 "resp").result = some "resp" ∧
    ∀ d, ({ id := "j5", documentId := some "d1" } : IngestionJob).documentId = some d →
      findDoc (triggerIngestion [{ id := "j5", documentId := some "d1" }]
          [("d1", DocumentStatus.uploaded)] "j5" 10 20 (.success "resp")).2 d =
        some .processed) :=
  ⟨⟨by decide, Or.inr ⟨"d1", DocumentStatus.uploaded, rfl, by decide⟩⟩,
   dispatch_success_completes [{ id := "j5", documentId := some "d1" }]
     [("d1", DocumentStatus.uploaded)] "j5" 10 20 "resp"
     { id := "j5", documentId := some "d1" } (by decide)
     (Or.inr ⟨"d1", DocumentStatus.uploaded, rfl, by decide⟩)⟩

/-- C6 counterexample: with two COMPLETED jobs — one with duration
5000 ms, one missing startedAt — the implemented average divides by the
count of all COMPLETED jobs and returns 2, while the mean over exactly
the COMPLETED jobs that have both timestamps, as the claim words it,
is 5. -/
theorem averageDuration_denominator_mismatch :
    averageDuration
      [{ id := "a", status := .completed, startedAt := some 0, completedAt := some 5000 },
       { id := "b", status := .completed, completedAt := some 7000 }] = 2 ∧
    specAverageDuration
      [{ id := "a", status := .completed, startedAt := some 0, completedAt := some 5000 },
       { id := "b", status := .completed, completedAt := some 7000 }] = 5 ∧
    (2 : Int) ≠ 5 := by
  decide

/-- C6 (amended): averageDuration is the floor of the sum of completedAt
minus startedAt over the COMPLETED jobs that have both timestamps, divided
by the count of ALL COMPLETED jobs times 1000 — jobs missing a timestamp
are excluded from the sum but still counted in the denominator — and 0
when there are no COMPLETED jobs; in particular a single COMPLETED job
completed 5000 ms after it started yields 5 seconds. -/
theorem averageDuration_formula :
    (∀ jobs : JobStore,
      averageDuration jobs =
        if (completedJobs jobs).length = 0 then 0
        else Int.fdiv (timedCompletedDurations jobs).sum
          (((completedJobs jobs).length : Int) * 1000)) ∧
    averageDuration [] = 0 ∧
    averageDuration
      [{ id := "a", status := .completed, startedAt := some 1000,
         completedAt := some 6000 }] = 5 := by
  refine ⟨?_, by decide, by decide⟩
  intro jobs
  simp only [averageDuration]
  by_cases h : (completedJobs jobs).length = 0
  · rw [if_neg (by omega), if_pos h]
  · have hpos : 0 < (completedJobs jobs).length := Nat.pos_of_ne_zero h
    rw [if_pos hpos, if_neg h]
    have ht : totalDuration (completedJobs jobs) = (timedCompletedDurations jobs).sum := by
      unfold totalDuration timedCompletedDurations
      rw [foldl_durationStep]
      simp
    rw [ht]

/-- C7 (confirmed): for a BATCH_DOCUMENTS create request, missing or empty
documentIds is rejected with the BadRequestException standing for
ValidationError, any id among documentIds that does not resolve is
rejected with NotFoundException, the store is unchanged in every failing
case, and a batch job is created only when every id resolves. -/
theorem batch_validation (jobs : JobStore) (docs : DocStore) (users : List String)
    (dto : CreateIngestionJobDto) (userId newId : String)
    (hb : dto.ingestionType = some batchDocuments) :
    ((dto.documentIds = none ∨ dto.documentIds = some []) →
      create jobs docs users dto userId newId =
        (.error (.badRequest "Document IDs are required for batch ingestion"), jobs)) ∧
    (∀ ids, dto.documentIds = some ids →
      (∃ d ∈ ids, findDoc docs d = none) →
      create jobs docs users dto userId newId =
        (.error (.notFound "Document not found"), jobs)) ∧
    (∀ j jobs2, create jobs docs users dto userId newId = (.ok j, jobs2) →
      ∀ ids, dto.documentIds = some ids → ∀ d ∈ ids, (findDoc docs d).isSome) := by
  have hne : (dto.ingestionType == some singleDocument) = false := by
    rw [hb]; decide
  have hs : validateSingle docs dto = .ok () := by
    simp [validateSingle, hne]
  have hbeq : (dto.ingestionType == some batchDocuments) = true := by
    rw [hb]; simp
  refine ⟨?_, ?_, ?_⟩
  · intro h
    have hv : validateIngestionJobDto docs dto =
        .error (.badRequest "Document IDs are required for batch ingestion") := by
      rcases h with h | h <;>
        simp [validateIngestionJobDto, hs, validateBatch, hbeq, h]
    exact create_error hv
  · intro ids hids hmiss
    have hempty : ids.isEmpty = false := by
      rcases hmiss with ⟨d, hd, _⟩
      cases ids with
      | nil => simp at hd
      | cons a l => rfl
    have hv : validateIngestionJobDto docs dto =
        .error (.notFound "Document not found") := by
      simp [validateIngestionJobDto, hs, validateBatch, hbeq, hids, hempty,
        checkDocumentsExist_error hmiss]
    exact create_error hv
  · intro j jobs2 hcr ids hids d hd
    obtain ⟨hv, _, _, _⟩ := create_ok hcr
    have hvb : validateBatch docs dto = .ok () := by
      unfold validateIngestionJobDto at hv
      rw [hs] at hv
      exact hv
    have hempty : ids.isEmpty = false := by
      cases ids with
      | nil => simp at hd
      | cons a l => rfl
    have hck : checkDocumentsExist docs ids = .ok () := by
      unfold validateBatch at hvb
      rw [hids] at hvb
      simp only [hbeq, if_true, hempty, if_false] at hvb
      simpa using hvb
    exact checkDocumentsExist_ok hck d hd

/-- C7 witness: a batch request naming an existing and a missing document
is rejected with NotFoundException and the store stays empty. -/
theorem batch_validation_witness :
    (({ ingestionType := some batchDocuments, documentIds := some ["d1", "dX"] } :
        CreateIngestionJobDto).ingestionType = some batchDocuments ∧
      findDoc [("d1", DocumentStatus.uploaded)] "dX" = none) ∧
    create [] [("d1", DocumentStatus.uploaded)] ["u1"]
      { ingestionType := some batchDocuments, documentIds := some ["d1", "dX"] }
      "u1" "j7" = (.error (.notFound "Document not found"), []) :=
  ⟨⟨rfl, by decide⟩,
   (batch_validation [] [("d1", DocumentStatus.uploaded)] ["u1"]
      { ingestionType := some batchDocuments, documentIds := some ["d1", "dX"] }
      "u1" "j7" rfl).2.1 ["d1", "dX"] rfl ⟨"dX", by decide, by decide⟩⟩

/-- C8 counterexample: a dispatch-completion write racing cancel performs
no status re-read: after cancel has set the job CANCELLED, saving the
completion of the snapshot read earlier overwrites the CANCELLED terminal
state with COMPLETED, so the claimed no-op guard does not exist. -/
theorem completion_overwrites_cancelled :
    (cancel [({ id := "j1" } : IngestionJob)] "j1" 50).1 =
      .ok (cancelUpdate { id := "j1" } 50) ∧
    Option.map (fun j => j.status)
      (findById (cancel [({ id := "j1" } : IngestionJob)] "j1" 50).2 "j1") =
      some .cancelled ∧
    Option.map (fun j => j.status)
      (findById (dispatchCompletionWrite
          (cancel [({ id := "j1" } : IngestionJob)] "j1" 50).2
          (startUpdate { id := "j1" } 10) 60 "resp") "j1") =
      some .completed := by
  decide

/-- C8 (amended): no state-mutating write re-reads the current status
before persisting: the dispatch-completion write saves the in-memory
snapshot unconditionally, last writer wins, so whatever state the store
holds for that job — a concurrently written terminal CANCELLED included —
the row afterwards reads back as the COMPLETED snapshot. -/
theorem dispatch_write_unconditional (jobs : JobStore) (snapshot : IngestionJob)
    (now2 : Int) (resp : String) :
    findById (dispatchCompletionWrite jobs snapshot now2 resp) snapshot.id =
      some (completeUpdate snapshot now2 resp) ∧
    (completeUpdate snapshot now2 resp).status = .completed := by
  refine ⟨?_, rfl⟩
  exact findById_save_self jobs (completeUpdate snapshot now2 resp)

/-- C9 (confirmed): a REPROCESS create request undergoes no
document-reference validation: validateIngestionJobDto accepts it whatever
documentId holds and whatever the document store contains, and create
persists a PENDING job even when documentId is absent or resolves to no
document. -/
theorem reprocess_skips_document_validation (jobs : JobStore) (docs : DocStore)
    (users : List String) (dto : CreateIngestionJobDto) (userId newId : String)
    (ht : dto.ingestionType = some reprocess) (hu : userId ∈ users) :
    validateIngestionJobDto docs dto = .ok () ∧
    create jobs docs users dto userId newId =
      (.ok (newJobRecord dto userId newId), save jobs (newJobRecord dto userId newId)) ∧
    (newJobRecord dto userId newId).status = .pending ∧
    findById (save jobs (newJobRecord dto userId newId)) newId =
      some (newJobRecord dto userId newId) := by
  have h1 : (dto.ingestionType == some singleDocument) = false := by rw [ht]; decide
  have h2 : (dto.ingestionType == some batchDocuments) = false := by rw [ht]; decide
  have hv : validateIngestionJobDto docs dto = .ok () := by
    simp [validateIngestionJobDto, validateSingle, validateBatch, h1, h2]
  refine ⟨hv, ?_, rfl, ?_⟩
  · unfold create
    rw [hv]
    simp [hu]
  · exact findById_save_self ..

/-- C9 witness: a REPROCESS request whose documentId resolves to no
document in an empty document store still creates a PENDING job. -/
theorem reprocess_witness :
    (({ ingestionType := some reprocess, documentId := some "ghost" } :
        CreateIngestionJobDto).ingestionType = some reprocess ∧
      "u1" ∈ ["u1"] ∧
      findDoc [] "ghost" = none) ∧
    (validateIngestionJobDto []
        { ingestionType := some reprocess, documentId := some "ghost" } = .ok () ∧
      create [] [] ["u1"] { ingestionType := some reprocess, documentId := some "ghost" }
          "u1" "j8" =
        (.ok (newJobRecord { ingestionType := some reprocess, documentId := some "ghost" }
            "u1" "j8"),
         save [] (newJobRecord { ingestionType := some reprocess, documentId := some "ghost" }
            "u1" "j8")) ∧
      (newJobRecord { ingestionType := some reprocess, documentId := some "ghost" }
          "u1" "j8").status = .pending ∧
      findById (save [] (newJobRecord
          { ingestionType := some reprocess, documentId := some "ghost" } "u1" "j8")) "j8" =
        some (newJobRecord { ingestionType := some reprocess, documentId := some "ghost" }
          "u1" "j8")) :=
  ⟨⟨rfl, by decide, rfl⟩,
   reprocess_skips_document_validation [] [] ["u1"]
     { ingestionType := some reprocess, documentId := some "ghost" } "u1" "j8"
     rfl (by decide)⟩

/-- C10 (confirmed): cancel never touches the referenced document: the
document store passes through cancel unchanged — a document at PROCESSING
stays PROCESSING — and the persisted job differs from the stored one only
in status and completedAt, with every other row of the job table either
the written job or already present. -/
theorem cancel_touches_no_document (jobs : JobStore) (docs : DocStore)
    (id : String) (now : Int) (j : IngestionJob) (jobs2 : JobStore)
    (h : cancel jobs id now = (.ok j, jobs2)) :
    (cancelSystem jobs docs id now).2.2 = docs ∧
    (∀ d st, findDoc docs d = some st →
      findDoc (cancelSystem jobs docs id now).2.2 d = some st) ∧
    (∃ job, findById jobs id = some job ∧ j = cancelUpdate job now ∧
      j.status = .cancelled ∧ j.completedAt = some now ∧
      j.id = job.id ∧ j.name = job.name ∧ j.description = job.description ∧
      j.ingestionType = job.ingestionType ∧ j.configuration = job.configuration ∧
      j.result = job.result ∧ j.errorMessage = job.errorMessage ∧
      j.startedAt = job.startedAt ∧ j.progress = job.progress ∧
      j.retryCount = job.retryCount ∧ j.maxRetries = job.maxRetries ∧
      j.triggeredById = job.triggeredById ∧ j.documentId = job.documentId) ∧
    (∀ x ∈ jobs2, x = j ∨ x ∈ jobs) := by
  obtain ⟨job, hf, hterm, hj, hsave⟩ := cancel_ok h
  refine ⟨rfl, fun d st hd => hd, ?_, ?_⟩
  · subst hj
    exact ⟨job, hf, rfl, rfl, rfl, rfl, rfl, rfl, rfl, rfl, rfl, rfl, rfl, rfl,
      rfl, rfl, rfl, rfl⟩
  · intro x hx
    rw [hsave] at hx
    exact mem_save hx

/-- C10 witness: cancelling a PROCESSING job whose document was moved to
PROCESSING by dispatch leaves that document at PROCESSING. -/
theorem cancel_frame_witness :
    cancel [({ id := "j1", status := .processing, documentId := some "d1" } : IngestionJob)]
        "j1" 50 =
      (.ok (cancelUpdate { id := "j1", status := .processing, documentId := some "d1" } 50),
       save [{ id := "j1", status := .processing, documentId := some "d1" }]
         (cancelUpdate { id := "j1", status := .processing, documentId := some "d1" } 50)) ∧
    ((cancelSystem [({ id := "j1", status := .processing, documentId := some "d1" } :
          IngestionJob)] [("d1", DocumentStatus.processing)] "j1" 50).2.2 =
        [("d1", DocumentStatus.processing)] ∧
      (∀ d st, findDoc [("d1", DocumentStatus.processing)] d = some st →
        findDoc (cancelSystem [({ id := "j1", status := .processing, documentId := some "d1" } :
            IngestionJob)] [("d1", DocumentStatus.processing)] "j1" 50).2.2 d = some st) ∧
      (∃ job, findById [({ id := "j1", status := .processing, documentId := some "d1" } :
            IngestionJob)] "j1" = some job ∧
        cancelUpdate { id := "j1", status := .processing, documentId := some "d1" } 50 =
          cancelUpdate job 50 ∧
        (cancelUpdate ({ id := "j1", status := .processing, documentId := some "d1" } :
            IngestionJob) 50).status = .cancelled ∧
        (cancelUpdate ({ id := "j1", status := .processing, documentId := some "d1" } :
            IngestionJob) 50).completedAt = some 50 ∧
        (cancelUpdate ({ id := "j1", status := .processing, documentId := some "d1" } :
            IngestionJob) 50).id = job.id ∧
        (cancelUpdate ({ id := "j1", status := .processing, documentId := some "d1" } :
            IngestionJob) 50).name = job.name ∧
        (cancelUpdate ({ id := "j1", status := .processing, documentId := some "d1" } :
            IngestionJob) 50).description = job.description ∧
        (cancelUpdate ({ id := "j1", status := .processing, documentId := some "d1" } :
            IngestionJob) 50).ingestionType = job.ingestionType ∧
        (cancelUpdate ({ id := "j1", status := .processing, documentId := some "d1" } :
            IngestionJob) 50).configuration = job.configuration ∧
        (cancelUpdate ({ id := "j1", status := .processing, documentId := some "d1" } :
            IngestionJob) 50).result = job.result ∧
        (cancelUpdate ({ id := "j1", status := .processing, documentId := some "d1" } :
            IngestionJob) 50).errorMessage = job.errorMessage ∧
        (cancelUpdate ({ id := "j1", status := .processing, documentId := some "d1" } :
            IngestionJob) 50).startedAt = job.startedAt ∧
        (cancelUpdate ({ id := "j1", status := .processing, documentId := some "d1" } :
            IngestionJob) 50).progress = job.progress ∧
        (cancelUpdate ({ id := "j1", status := .processing, documentId := some "d1" } :
            IngestionJob) 50).retryCount = job.retryCount ∧
        (cancelUpdate ({ id := "j1", status := .processing, documentId := some "d1" } :
            IngestionJob) 50).maxRetries = job.maxRetries ∧
        (cancelUpdate ({ id := "j1", status := .processing, documentId := some "d1" } :
            IngestionJob) 50).triggeredById = job.triggeredById ∧
        (cancelUpdate ({ id := "j1", status := .processing, documentId := some "d1" } :
            IngestionJob) 50).documentId = job.documentId) ∧
      (∀ x ∈ save [({ id := "j1", status := .processing, documentId := some "d1" } :
            IngestionJob)]
          (cancelUpdate { id := "j1", status := .processing, documentId := some "d1" } 50),
        x = cancelUpdate { id := "j1", status := .processing, documentId := some "d1" } 50 ∨
        x ∈ [({ id := "j1", status := .processing, documentId := some "d1" } :
          IngestionJob)])) :=
  ⟨by decide,
   cancel_touches_no_document
     [{ id := "j1", status := .processing, documentId := some "d1" }]
     [("d1", DocumentStatus.processing)] "j1" 50
     (cancelUpdate { id := "j1", status := .processing, documentId := some "d1" } 50)
     (save [{ id := "j1", status := .processing, documentId := some "d1" }]
       (cancelUpdate { id := "j1", status := .processing, documentId := some "d1" } 50))
     (by decide)⟩

end DocMgmt
